import Mathlib

/-!
Shallow embedding of the Binance trend-consistency analyzer repository.

The two core components are transcribed from the TypeScript source:

* `fetchHistoricalData` (src/services/binanceService.ts): the paginated
  candle fetcher.  The network is abstracted as an oracle mapping the
  requested page-start cursor to a response; timestamps are epoch
  milliseconds modelled as `Int` (JS numbers holding integer values).
* `analyzeData` (src/unnamed/part_003): the 15-minute interval analyzer.
  Wire prices are decimal strings parsed with `parseFloat`; the model
  carries the parsed numeric value directly, as an exact rational.
  JavaScript `Array.prototype.sort` is stable, and the comparators used
  compare numeric keys, so a stable sort by the same key — Mathlib's
  `List.insertionSort` — produces the identical list.
-/

/-- Direction enum from src/unnamed/part_003 (`Direction`). -/
inductive Direction where
  | UP
  | DOWN
  | FLAT
deriving DecidableEq, Inhabited

/-- One one-minute OHLC candle (`BinanceKline` in the source).  Prices are
carried as exact rationals (the semantic value of the decimal wire string). -/
structure BinanceKline where
  openTime : Int
  open_ : ℚ
  high : ℚ
  low : ℚ
  close : ℚ
  volume : ℚ
  closeTime : Int
deriving DecidableEq, Inhabited

/-- Per-bucket analysis record (`IntervalAnalysis` in the source). -/
structure IntervalAnalysis where
  startTime : Int
  endTime : Int
  startPrice : ℚ
  priceAt14m55s : ℚ
  direction14m55s : Direction
  priceAt15m : ℚ
  direction15m : Direction
  isMatch : Bool
deriving DecidableEq, Inhabited

/-- Aggregate output (`AnalysisStats` in the source). -/
structure AnalysisStats where
  symbol : String
  totalIntervals : Nat
  matchCount : Nat
  mismatchCount : Nat
  matchRate : ℚ
  dataPoints : List IntervalAnalysis
deriving DecidableEq

/-- `getDirection` from src/unnamed/part_003: strict comparison, no epsilon. -/
def getDirection (start : ℚ) (end_ : ℚ) : Direction :=
  if end_ > start then Direction.UP
  else if end_ < start then Direction.DOWN
  else Direction.FLAT

/-- Bucket key of a candle: `Math.floor(timestamp / (15*60*1000)) * (15*60*1000)`.
`Int.fdiv` is floor division, matching `Math.floor` on a real quotient. -/
def bucketStart (timestamp : Int) : Int :=
  (Int.fdiv timestamp (15 * 60 * 1000)) * (15 * 60 * 1000)

/-- The bucket array built for key `b`: the candles pushed into
`bucketMap.get(b)`, in input order. -/
def bucketCandles (klines : List BinanceKline) (b : Int) : List BinanceKline :=
  klines.filter (fun k => bucketStart k.openTime = b)

/-- The keys of `bucketMap`, sorted ascending (`Array.from(bucketMap.keys()).sort((a, b) => a - b)`). -/
def sortedKeys (klines : List BinanceKline) : List Int :=
  List.insertionSort (· ≤ ·) ((klines.map (fun k => bucketStart k.openTime)).dedup)

/-- The within-bucket sort `candles.sort((a, b) => a.openTime - b.openTime)`:
a stable sort by `openTime`. -/
def sortedBucket (klines : List BinanceKline) (b : Int) : List BinanceKline :=
  List.insertionSort (fun a c => a.openTime ≤ c.openTime) (bucketCandles klines b)

/-- Body of the per-bucket loop of `analyzeData` once a complete, sorted bucket
is at hand: reads `candles[0]` and `candles[14]`, interpolates the 14m55s
price at the 55/60 fraction, classifies directions, and compares them. -/
def mkIntervalAnalysis (startTime : Int) (candles : List BinanceKline) : IntervalAnalysis :=
  let startCandle := candles.getD 0 default
  let endCandle := candles.getD 14 default
  let startPrice := startCandle.open_
  let priceAt15m := endCandle.close
  let open14 := endCandle.open_
  let close14 := endCandle.close
  let priceAt14m55s := open14 + (close14 - open14) * (55 / 60)
  let direction15m := getDirection startPrice priceAt15m
  let direction14m55s := getDirection startPrice priceAt14m55s
  { startTime := startTime
    endTime := startTime + 15 * 60 * 1000
    startPrice := startPrice
    priceAt14m55s := priceAt14m55s
    direction14m55s := direction14m55s
    priceAt15m := priceAt15m
    direction15m := direction15m
    isMatch := decide (direction15m = direction14m55s) }

/-- The main loop of `analyzeData`: buckets with fewer than 15 candles are
skipped (`continue`), complete buckets are sorted and analyzed. -/
def intervalResults (klines : List BinanceKline) : List IntervalAnalysis :=
  (sortedKeys klines).filterMap (fun b =>
    if (bucketCandles klines b).length < 15 then none
    else some (mkIntervalAnalysis b (sortedBucket klines b)))

/-- `analyzeData` from src/unnamed/part_003, aggregates included.
`dataPoints` is reversed to newest-first, exactly as in the source. -/
def analyzeData (klines : List BinanceKline) (symbol : String) : AnalysisStats :=
  let results := intervalResults klines
  let total := results.length
  let matchCount := (results.filter (fun r => r.isMatch)).length
  let mismatchCount := total - matchCount
  let matchRate : ℚ := if total = 0 then 0 else ((matchCount : ℚ) / (total : ℚ)) * 100
  { symbol := symbol
    totalIntervals := total
    matchCount := matchCount
    mismatchCount := mismatchCount
    matchRate := matchRate
    dataPoints := results.reverse }

/-!
The fetcher, src/services/binanceService.ts.  A page request is determined by
the `startTime` cursor placed in the URL; the network is an oracle from that
cursor to a response.  A success payload is a JSON list of fixed-position
arrays `[openTime, open, high, low, close, volume, closeTime, ...]`; the
`data.map` step reads positions 0-6, so a parsed row is modelled directly as
a `BinanceKline`.  A non-list success payload is kept as its JSON text, which
is all the code uses it for.
-/

/-- Possible outcomes of one page request. -/
inductive PageResponse where
  | transportError (status : Nat) (statusText : String)
  | appError (body : String)
  | page (rows : List BinanceKline)

/-- The two error species thrown by `fetchHistoricalData`. -/
inductive FetchError where
  | transport (status : Nat) (statusText : String)
  | app (body : String)
deriving DecidableEq

/-- Message of the transport error:
`` `Binance API error: ${response.status} ${response.statusText}` ``. -/
def transportMessage (status : Nat) (statusText : String) : String :=
  "Binance API error: " ++ toString status ++ " " ++ statusText

/-- Message of the upstream application error:
`` `Binance API Error: ${JSON.stringify(data)}` ``. -/
def appMessage (body : String) : String :=
  "Binance API Error: " ++ body

/-- The human-readable message carried by a thrown error. -/
def FetchError.message : FetchError → String
  | .transport s t => transportMessage s t
  | .app b => appMessage b

/-- `const MAX_LOOPS = 20` — the fixed safety cap on loop iterations. -/
def MAX_LOOPS : Nat := 20

/-- The `while (currentStartTime < now && safetyCounter < MAX_LOOPS)` loop of
`fetchHistoricalData`.  `fuel` is the remaining iteration budget
(`MAX_LOOPS - safetyCounter`), `cursor` is `currentStartTime`, `acc` is
`allKlines`.  Errors rethrow out of the loop; an empty page `break`s; a
non-empty page appends its rows and advances the cursor to the last row's
`closeTime + 1`. -/
def fetchLoop (source : Int → PageResponse) (now : Int) :
    Nat → Int → List BinanceKline → Except FetchError (List BinanceKline)
  | 0, _, acc => .ok acc
  | fuel + 1, cursor, acc =>
    if cursor < now then
      match source cursor with
      | .transportError s t => .error (.transport s t)
      | .appError b => .error (.app b)
      | .page [] => .ok acc
      | .page (r :: rs) =>
          fetchLoop source now fuel
            (((r :: rs).getLast (List.cons_ne_nil r rs)).closeTime + 1)
            (acc ++ (r :: rs))
    else .ok acc

/-- `fetchHistoricalData(symbol, hoursLookback)`:
`startTime = now - hoursLookback * 60 * 60 * 1000`, then the paged loop with
budget `MAX_LOOPS` starting from an empty accumulator. -/
def fetchHistoricalData (source : Int → PageResponse) (now : Int)
    (hoursLookback : Int) : Except FetchError (List BinanceKline) :=
  fetchLoop source now MAX_LOOPS (now - hoursLookback * 60 * 60 * 1000) []

/-- The sequence of cursors at which `fetchLoop` issues page requests. -/
def fetchTrace (source : Int → PageResponse) (now : Int) :
    Nat → Int → List Int
  | 0, _ => []
  | fuel + 1, cursor =>
    if cursor < now then
      cursor ::
        (match source cursor with
         | .page (r :: rs) =>
             fetchTrace source now fuel
               (((r :: rs).getLast (List.cons_ne_nil r rs)).closeTime + 1)
         | _ => [])
    else []

/-- Relation between one requested cursor and the next: the request succeeded
with a non-empty page and the next cursor is exactly the last returned
candle's `closeTime + 1`. -/
def gaplessStep (source : Int → PageResponse) (c c' : Int) : Prop :=
  ∃ r rs, source c = PageResponse.page (r :: rs) ∧
    c' = ((r :: rs).getLast (List.cons_ne_nil r rs)).closeTime + 1

/-- Which thrown error a response produces; page responses throw nothing. -/
def failsWith : PageResponse → FetchError → Prop
  | .transportError s t, e => e = FetchError.transport s t
  | .appError b, e => e = FetchError.app b
  | .page _, _ => False

/-- Modelled from the spec: the progress-reporting variant of
`fetchHistoricalData` (the three-argument form invoked by the app shell as
`fetchHistoricalData(selectedPair, hours, (p) => setProgress(p))`) is absent
from `src`; per the spec the callback receives the fractional progress
`(cursor - startTime) / (now - startTime)` as an integer percentage clamped
to `[0, 100]`. -/
def progressPercent (startTime : Int) (now : Int) (cursor : Int) : Int :=
  min 100 (max 0 ((cursor - startTime) * 100 / (now - startTime)))

/-- Modelled from the spec: the percentages handed to the progress callback,
one per completed page, reported after the cursor advances. -/
def fetchProgressReports (source : Int → PageResponse) (now : Int)
    (startTime : Int) : Nat → Int → List Int
  | 0, _ => []
  | fuel + 1, cursor =>
    if cursor < now then
      match source cursor with
      | .page (r :: rs) =>
          let next := ((r :: rs).getLast (List.cons_ne_nil r rs)).closeTime + 1
          progressPercent startTime now next ::
            fetchProgressReports source now startTime fuel next
      | _ => []
    else []

/-!
Heap model for the mutation claim.  In the JavaScript code the input array
`klines` holds references to candle records; `bucketMap.get(b).push(k)`
copies those references into freshly allocated per-bucket arrays, and the
only in-place mutation in `analyzeData` — `candles.sort(...)` — permutes a
bucket array.  `results.reverse()` permutes the freshly built results array.
The model below makes the aliasing explicit: a store of candle records plus
an input array of references (indices) into it.  Every step of the analysis
reads through the store; no step produces a new store or a new input array,
so the function hands back the pair it was given.
-/

/-- The heap as seen by `analyzeData`: the candle records and the input
array of references into them. -/
structure RefState where
  store : List BinanceKline
  input : List Nat
deriving DecidableEq

/-- Dereference one element of an array of candle references. -/
def deref (store : List BinanceKline) (i : Nat) : BinanceKline :=
  store.getD i default

/-- The per-bucket loop of `analyzeData` replayed over the reference model.
Bucket arrays are fresh arrays of references; the within-bucket sort permutes
such a fresh array; record fields are only ever read. -/
def intervalResultsRef (s : RefState) : List IntervalAnalysis :=
  let key := fun i => bucketStart (deref s.store i).openTime
  let keys := List.insertionSort (· ≤ ·) ((s.input.map key).dedup)
  keys.filterMap (fun b =>
    let candleRefs := s.input.filter (fun i => key i = b)
    if candleRefs.length < 15 then none
    else
      let sortedRefs := List.insertionSort
        (fun i j => (deref s.store i).openTime ≤ (deref s.store j).openTime) candleRefs
      some (mkIntervalAnalysis b (sortedRefs.map (deref s.store))))

/-- `analyzeData` replayed over the reference model.  The final heap is
returned alongside the stats; no step writes to the store or to the input
array. -/
def analyzeDataRef (s : RefState) (symbol : String) : AnalysisStats × RefState :=
  let results := intervalResultsRef s
  let total := results.length
  let matchCount := (results.filter (fun r => r.isMatch)).length
  let mismatchCount := total - matchCount
  let matchRate : ℚ := if total = 0 then 0 else ((matchCount : ℚ) / (total : ℚ)) * 100
  ({ symbol := symbol
     totalIntervals := total
     matchCount := matchCount
     mismatchCount := mismatchCount
     matchRate := matchRate
     dataPoints := results.reverse }, s)

/-!
Concrete inputs used to exercise the definitions.
-/

/-- Sixteen consecutive one-minute candles from `openTime = 0`: minute 0 opens
at 100, minute 14 has open 110 and close 120, minute 15 spills into the next
15-minute bucket. -/
def scenario16 : List BinanceKline :=
  (List.range 16).map (fun i =>
    if i = 14 then
      { openTime := 60000 * (i : Int), open_ := 110, high := 120, low := 110,
        close := 120, volume := 0, closeTime := 60000 * (i : Int) + 59999 }
    else
      { openTime := 60000 * (i : Int), open_ := 100, high := 100, low := 100,
        close := 100, volume := 0, closeTime := 60000 * (i : Int) + 59999 })

/-- Fifteen candles: minutes 0 through 13 (an incomplete first bucket of 14
candles) plus minute 15 (an incomplete second bucket of one candle). -/
def gapped15 : List BinanceKline :=
  (List.range 14).map (fun i =>
    { openTime := 60000 * (i : Int), open_ := 100, high := 100, low := 100,
      close := 100, volume := 0, closeTime := 60000 * (i : Int) + 59999 })
  ++ [{ openTime := 900000, open_ := 100, high := 100, low := 100,
        close := 100, volume := 0, closeTime := 959999 }]

/-- Minutes 0 through 13 (a 14-candle bucket), then minutes 15 through 29 plus
a duplicate of minute 16 (a 16-candle bucket). -/
def bucket14and16 : List BinanceKline :=
  (List.range 14).map (fun i =>
    { openTime := 60000 * (i : Int), open_ := 100, high := 100, low := 100,
      close := 100, volume := 0, closeTime := 60000 * (i : Int) + 59999 })
  ++ (List.range 15).map (fun i =>
    { openTime := 900000 + 60000 * (i : Int), open_ := 100 + (i : ℚ), high := 200, low := 50,
      close := 101 + (i : ℚ), volume := 0, closeTime := 900000 + 60000 * (i : Int) + 59999 })
  ++ [{ openTime := 960000, open_ := 400, high := 400, low := 400,
        close := 400, volume := 0, closeTime := 1019999 }]

/-- A source whose every page is empty. -/
def emptySource : Int → PageResponse := fun _ => PageResponse.page []

/-- A source whose every request fails at the transport level. -/
def errSource : Int → PageResponse :=
  fun _ => PageResponse.transportError 500 "Internal Server Error"

/-- A sparse source: every page holds exactly one one-minute candle starting
at the requested cursor. -/
def oneCandleSource : Int → PageResponse := fun c =>
  PageResponse.page
    [{ openTime := c, open_ := 100, high := 100, low := 100, close := 100,
       volume := 0, closeTime := c + 59999 }]

/-- Length of the candle list a fetch produced, if it succeeded. -/
def resultLength : Except FetchError (List BinanceKline) → Option Nat
  | .ok l => some l.length
  | .error _ => none

/-!
Lemmas about the analyzer.
-/

theorem mkIntervalAnalysis_startTime (b : Int) (c : List BinanceKline) :
    (mkIntervalAnalysis b c).startTime = b := rfl

theorem mem_intervalResults {klines : List BinanceKline} {r : IntervalAnalysis} :
    r ∈ intervalResults klines ↔
      ∃ b ∈ sortedKeys klines, 15 ≤ (bucketCandles klines b).length ∧
        r = mkIntervalAnalysis b (sortedBucket klines b) := by
  unfold intervalResults
  rw [List.mem_filterMap]
  constructor
  · rintro ⟨b, hb, hf⟩
    by_cases h : (bucketCandles klines b).length < 15
    · simp [h] at hf
    · rw [if_neg h] at hf
      exact ⟨b, hb, Nat.le_of_not_lt h, (Option.some.injEq _ _ ▸ hf).symm⟩
  · rintro ⟨b, hb, h, rfl⟩
    exact ⟨b, hb, by rw [if_neg (Nat.not_lt.mpr h)]⟩

theorem mem_dataPoints {klines : List BinanceKline} {symbol : String}
    {r : IntervalAnalysis} :
    r ∈ (analyzeData klines symbol).dataPoints ↔ r ∈ intervalResults klines := by
  simp [analyzeData]

theorem mem_sortedKeys {klines : List BinanceKline} {b : Int} :
    b ∈ sortedKeys klines ↔ ∃ k ∈ klines, bucketStart k.openTime = b := by
  unfold sortedKeys
  rw [List.mem_insertionSort, List.mem_dedup, List.mem_map]

theorem sortedKeys_nodup (klines : List BinanceKline) : (sortedKeys klines).Nodup :=
  (List.perm_insertionSort _ _).nodup_iff.mpr (List.nodup_dedup _)

/-- C8: for every input, `matchCount + mismatchCount = totalIntervals`, and
`matchRate = 0` whenever `totalIntervals = 0` (the aggregate guards the
division with `total === 0 ? 0 : ...`). -/
theorem claim_C8 (klines : List BinanceKline) (symbol : String) :
    (analyzeData klines symbol).matchCount + (analyzeData klines symbol).mismatchCount
        = (analyzeData klines symbol).totalIntervals ∧
    ((analyzeData klines symbol).totalIntervals = 0 →
        (analyzeData klines symbol).matchRate = 0) := by
  constructor
  · exact Nat.add_sub_cancel' (List.length_filter_le _ _)
  · intro h
    simp only [analyzeData] at h ⊢
    rw [if_pos h]

/-- Witness for C8 at the empty candle list. -/
theorem claim_C8_witness :
    (analyzeData [] "BTCUSDT").totalIntervals = 0 ∧
    (analyzeData [] "BTCUSDT").matchRate = 0 :=
  ⟨rfl, (claim_C8 [] "BTCUSDT").2 rfl⟩

/-- C5: direction classification is strict — `UP` iff end > start, `DOWN` iff
end < start, `FLAT` iff exactly equal, with no epsilon — and a bucket matches
iff its checkpoint direction equals its end direction, so FLAT/FLAT matches
while FLAT against UP or DOWN does not. -/
theorem claim_C5 :
    (∀ start end_ : ℚ,
        (getDirection start end_ = Direction.UP ↔ start < end_) ∧
        (getDirection start end_ = Direction.DOWN ↔ end_ < start) ∧
        (getDirection start end_ = Direction.FLAT ↔ end_ = start)) ∧
    (∀ (klines : List BinanceKline) (symbol : String) (r : IntervalAnalysis),
        r ∈ (analyzeData klines symbol).dataPoints →
          (r.isMatch = true ↔ r.direction14m55s = r.direction15m)) := by
  constructor
  · intro s e
    unfold getDirection
    rcases lt_trichotomy s e with h | h | h
    · simp [h, h.ne', h.asymm]
    · subst h
      simp [lt_irrefl]
    · simp [h, h.ne, h.asymm]
  · intro klines symbol r hr
    obtain ⟨b, _, _, rfl⟩ := mem_intervalResults.mp (mem_dataPoints.mp hr)
    simp only [mkIntervalAnalysis]
    rw [decide_eq_true_eq]
    exact eq_comm

/-- Witness for C5 on the 16-candle scenario: its single bucket matches iff
the directions agree, and the three direction examples classify as stated. -/
theorem claim_C5_witness :
    (((analyzeData scenario16 "BTCUSDT").dataPoints.getD 0 default).isMatch = true ↔
      ((analyzeData scenario16 "BTCUSDT").dataPoints.getD 0 default).direction14m55s
        = ((analyzeData scenario16 "BTCUSDT").dataPoints.getD 0 default).direction15m) ∧
    getDirection 100 100 = Direction.FLAT ∧
    getDirection 100 101 = Direction.UP ∧
    getDirection 100 99 = Direction.DOWN := by
  have h0 : 0 < (analyzeData scenario16 "BTCUSDT").dataPoints.length := by decide
  refine ⟨claim_C5.2 scenario16 "BTCUSDT" _ ?_, ((claim_C5.1 100 100).2.2).mpr rfl,
    ((claim_C5.1 100 101).1).mpr (by norm_num), ((claim_C5.1 100 99).2.1).mpr (by norm_num)⟩
  rw [List.getD_eq_getElem _ _ h0]
  exact List.getElem_mem h0

set_option maxRecDepth 10000 in
/-- C1: every complete bucket's checkpoint price is the 55/60 linear
interpolation between minute-14's open and close; on 16 consecutive candles
from `openTime = 0` with minute-0 open 100 and minute-14 open 110 / close 120
the single bucket yields startPrice 100, endPrice 120, checkpoint
`110 + (120 - 110) * 55/60 = 715/6 ≈ 119.1667`, both directions UP, and a
match. -/
theorem claim_C1 :
    (∀ (klines : List BinanceKline) (symbol : String) (r : IntervalAnalysis),
        r ∈ (analyzeData klines symbol).dataPoints →
          r.priceAt14m55s =
            ((sortedBucket klines r.startTime).getD 14 default).open_ +
              (((sortedBucket klines r.startTime).getD 14 default).close -
                ((sortedBucket klines r.startTime).getD 14 default).open_) * (55 / 60)) ∧
    ((analyzeData scenario16 "BTCUSDT").dataPoints.length = 1 ∧
     ((analyzeData scenario16 "BTCUSDT").dataPoints.getD 0 default).startPrice = 100 ∧
     ((analyzeData scenario16 "BTCUSDT").dataPoints.getD 0 default).priceAt15m = 120 ∧
     ((analyzeData scenario16 "BTCUSDT").dataPoints.getD 0 default).priceAt14m55s = 715 / 6 ∧
     ((analyzeData scenario16 "BTCUSDT").dataPoints.getD 0 default).direction15m = Direction.UP ∧
     ((analyzeData scenario16 "BTCUSDT").dataPoints.getD 0 default).direction14m55s = Direction.UP ∧
     ((analyzeData scenario16 "BTCUSDT").dataPoints.getD 0 default).isMatch = true) := by
  constructor
  · intro klines symbol r hr
    obtain ⟨b, _, _, rfl⟩ := mem_intervalResults.mp (mem_dataPoints.mp hr)
    rfl
  · with_unfolding_all decide

/-- Witness for C1: the interpolation identity instantiated at the scenario's
single bucket record. -/
theorem claim_C1_witness :
    ((analyzeData scenario16 "BTCUSDT").dataPoints.getD 0 default).priceAt14m55s =
      ((sortedBucket scenario16
          ((analyzeData scenario16 "BTCUSDT").dataPoints.getD 0 default).startTime).getD 14
            default).open_ +
        (((sortedBucket scenario16
            ((analyzeData scenario16 "BTCUSDT").dataPoints.getD 0 default).startTime).getD 14
              default).close -
          ((sortedBucket scenario16
              ((analyzeData scenario16 "BTCUSDT").dataPoints.getD 0 default).startTime).getD 14
                default).open_) * (55 / 60) := by
  have h0 : 0 < (analyzeData scenario16 "BTCUSDT").dataPoints.length := by decide
  refine claim_C1.1 scenario16 "BTCUSDT" _ ?_
  rw [List.getD_eq_getElem _ _ h0]
  exact List.getElem_mem h0

/-- C7: a 14-candle bucket is silently excluded; a bucket with 15 or more
candles (16 included) is analyzed, reading indices 0 and 14 of its
time-sorted candle array. -/
theorem claim_C7 (klines : List BinanceKline) (symbol : String) (b : Int) :
    ((bucketCandles klines b).length = 14 →
        ∀ r ∈ (analyzeData klines symbol).dataPoints, r.startTime ≠ b) ∧
    (15 ≤ (bucketCandles klines b).length →
        ∃ r ∈ (analyzeData klines symbol).dataPoints,
          r.startTime = b ∧
          r.startPrice = ((sortedBucket klines b).getD 0 default).open_ ∧
          r.priceAt15m = ((sortedBucket klines b).getD 14 default).close ∧
          r = mkIntervalAnalysis b (sortedBucket klines b)) := by
  constructor
  · intro h14 r hr
    obtain ⟨b', _, hlen', rfl⟩ := mem_intervalResults.mp (mem_dataPoints.mp hr)
    rw [mkIntervalAnalysis_startTime]
    rintro rfl
    rw [h14] at hlen'
    exact absurd hlen' (by norm_num)
  · intro h15
    have hpos : 0 < (bucketCandles klines b).length :=
      lt_of_lt_of_le (by norm_num) h15
    obtain ⟨k, hk⟩ := List.exists_mem_of_length_pos hpos
    have hk' := List.mem_filter.mp hk
    have hbmem : b ∈ sortedKeys klines :=
      mem_sortedKeys.mpr ⟨k, hk'.1, of_decide_eq_true hk'.2⟩
    exact ⟨mkIntervalAnalysis b (sortedBucket klines b),
      mem_dataPoints.mpr (mem_intervalResults.mpr ⟨b, hbmem, h15, rfl⟩),
      rfl, rfl, rfl, rfl⟩

/-- Witness for C7: a concrete 14-candle bucket is dropped while a concrete
16-candle bucket is analyzed from indices 0 and 14 of its sorted array. -/
theorem claim_C7_witness :
    (bucketCandles bucket14and16 0).length = 14 ∧
    (∀ r ∈ (analyzeData bucket14and16 "ETHUSDT").dataPoints, r.startTime ≠ 0) ∧
    (bucketCandles bucket14and16 900000).length = 16 ∧
    (∃ r ∈ (analyzeData bucket14and16 "ETHUSDT").dataPoints,
        r.startTime = 900000 ∧
        r.startPrice = ((sortedBucket bucket14and16 900000).getD 0 default).open_ ∧
        r.priceAt15m = ((sortedBucket bucket14and16 900000).getD 14 default).close ∧
        r = mkIntervalAnalysis 900000 (sortedBucket bucket14and16 900000)) :=
  ⟨by decide, (claim_C7 bucket14and16 "ETHUSDT" 0).1 (by decide), by decide,
   (claim_C7 bucket14and16 "ETHUSDT" 900000).2 (by decide)⟩

theorem mul_length_le_sum (m : Nat) :
    ∀ (L : List Nat), (∀ x ∈ L, m ≤ x) → m * L.length ≤ L.sum := by
  intro L
  induction L with
  | nil => simp
  | cons x L ih =>
    intro h
    rw [List.length_cons, List.sum_cons, Nat.mul_succ]
    have h1 := ih (fun y hy => h y (List.mem_cons_of_mem _ hy))
    have h2 := h x (List.mem_cons_self _ _)
    omega

theorem sum_bucketLengths_le :
    ∀ (B : List Int), B.Nodup → ∀ (l : List BinanceKline),
      (B.map (fun b => (bucketCandles l b).length)).sum ≤ l.length := by
  intro B
  induction B with
  | nil =>
    intro _ l
    simp
  | cons b B ih =>
    intro hnd l
    have hb : b ∉ B := (List.nodup_cons.mp hnd).1
    have hnd' : B.Nodup := (List.nodup_cons.mp hnd).2
    rw [List.map_cons, List.sum_cons]
    have hmap : B.map (fun c => (bucketCandles l c).length)
        = B.map (fun c =>
            (bucketCandles (l.filter (fun k => !(decide (bucketStart k.openTime = b)))) c).length) := by
      apply List.map_congr_left
      intro c hc
      have hcb : c ≠ b := fun e => hb (e ▸ hc)
      unfold bucketCandles
      rw [List.filter_filter]
      apply congrArg
      apply List.filter_congr
      intro k _
      by_cases hk : bucketStart k.openTime = c
      · have hknb : ¬ bucketStart k.openTime = b := by rw [hk]; exact hcb
        simp [hk, hknb, hcb]
      · simp [hk]
    rw [hmap]
    have hle := ih hnd' (l.filter (fun k => !(decide (bucketStart k.openTime = b))))
    have hsplit := List.length_eq_length_filter_add
      (l := l) (fun k => decide (bucketStart k.openTime = b))
    simp only [bucketCandles] at *
    omega

theorem intervalResults_length (klines : List BinanceKline) :
    (intervalResults klines).length =
      ((sortedKeys klines).filter
        (fun b => decide (15 ≤ (bucketCandles klines b).length))).length := by
  unfold intervalResults
  induction sortedKeys klines with
  | nil => rfl
  | cons b B ih =>
    rw [List.filterMap_cons, List.filter_cons]
    by_cases h : (bucketCandles klines b).length < 15
    · simp only [if_pos h, ih]
      simp [Nat.not_le.mpr h]
    · simp only [if_neg h]
      simp [Nat.le_of_not_lt h, List.length_cons, ih]

/-!
Lemmas about the fetcher.
-/

theorem transportMessage_ne_appMessage (s : Nat) (t b : String) :
    transportMessage s t ≠ appMessage b := by
  unfold transportMessage appMessage
  intro h
  have hd := congrArg String.data h
  simp only [String.data_append] at hd
  simp at hd

theorem fetchTrace_head (source : Int → PageResponse) (now : Int) :
    ∀ (fuel : Nat) (c y : Int),
      (fetchTrace source now fuel c).head? = some y → y = c := by
  intro fuel c y h
  cases fuel with
  | zero => simp [fetchTrace] at h
  | succ fuel =>
    unfold fetchTrace at h
    by_cases hc : c < now
    · rw [if_pos hc] at h
      simp at h
      exact h.symm
    · rw [if_neg hc] at h
      simp at h

theorem fetchTrace_length_le (source : Int → PageResponse) (now : Int) :
    ∀ (fuel : Nat) (c : Int), (fetchTrace source now fuel c).length ≤ fuel := by
  intro fuel
  induction fuel with
  | zero =>
    intro c
    simp [fetchTrace]
  | succ fuel ih =>
    intro c
    unfold fetchTrace
    by_cases hc : c < now
    · rw [if_pos hc]
      cases hsrc : source c with
      | transportError s t => simp
      | appError b => simp
      | page rows =>
        cases rows with
        | nil => simp
        | cons r rs =>
          simpa using Nat.succ_le_succ (ih _)
    · rw [if_neg hc]
      simp

theorem fetchTrace_chain (source : Int → PageResponse) (now : Int) :
    ∀ (fuel : Nat) (c : Int),
      List.Chain' (gaplessStep source) (fetchTrace source now fuel c) := by
  intro fuel
  induction fuel with
  | zero =>
    intro c
    simp [fetchTrace]
  | succ fuel ih =>
    intro c
    unfold fetchTrace
    by_cases hc : c < now
    · rw [if_pos hc]
      cases hsrc : source c with
      | transportError s t => simp [List.chain'_singleton]
      | appError b => simp [List.chain'_singleton]
      | page rows =>
        cases rows with
        | nil => simp [List.chain'_singleton]
        | cons r rs =>
          rw [List.chain'_cons']
          refine ⟨?_, ih _⟩
          intro y hy
          have hyc := fetchTrace_head source now fuel _ y (Option.mem_def.mp hy)
          subst hyc
          exact ⟨r, rs, hsrc, rfl⟩
    · rw [if_neg hc]
      exact List.chain'_nil

theorem fetchLoop_error_iff (source : Int → PageResponse) (now : Int) :
    ∀ (fuel : Nat) (cursor : Int) (acc : List BinanceKline) (e : FetchError),
      fetchLoop source now fuel cursor acc = Except.error e ↔
        ∃ c ∈ fetchTrace source now fuel cursor, failsWith (source c) e := by
  intro fuel
  induction fuel with
  | zero =>
    intro cursor acc e
    simp [fetchLoop, fetchTrace]
  | succ fuel ih =>
    intro cursor acc e
    unfold fetchLoop fetchTrace
    by_cases hc : cursor < now
    · rw [if_pos hc, if_pos hc]
      cases hsrc : source cursor with
      | transportError s t => simp [hsrc, failsWith, eq_comm]
      | appError b => simp [hsrc, failsWith, eq_comm]
      | page rows =>
        cases rows with
        | nil => simp [hsrc, failsWith]
        | cons r rs => simp [hsrc, failsWith, ih]
    · rw [if_neg hc, if_neg hc]
      simp

/-- C2: along the whole request trace of a fetch, every successful non-empty
page advances the cursor to exactly the last returned candle's
`closeTime + 1` before the next request is issued. -/
theorem claim_C2 (source : Int → PageResponse) (now hoursLookback : Int) :
    List.Chain' (gaplessStep source)
      (fetchTrace source now MAX_LOOPS (now - hoursLookback * 60 * 60 * 1000)) :=
  fetchTrace_chain source now MAX_LOOPS _

/-- C3 (amended): the pagination loop is bounded by the fixed budget
`MAX_LOOPS = 20`, which is not derived from the requested window; exhausting
the budget is not an error — the loop stops and returns the accumulated
candles. -/
theorem claim_C3 (source : Int → PageResponse) (now hoursLookback : Int) :
    (fetchTrace source now MAX_LOOPS (now - hoursLookback * 60 * 60 * 1000)).length
        ≤ MAX_LOOPS ∧
    (∀ (cursor : Int) (acc : List BinanceKline),
        fetchLoop source now 0 cursor acc = Except.ok acc) :=
  ⟨fetchTrace_length_le source now MAX_LOOPS _, fun _ _ => rfl⟩

/-- Counterexample to C3 as stated: for a 1000-hour lookback the window holds
60000 one-minute candles, so a budget derived from `ceil(expected / 1000)`
would need at least 60 iterations, yet the cap is the fixed constant 20; a
sparse source then exhausts the budget after 20 pages and the fetch still
returns `ok` with only the 20 accumulated candles. -/
theorem claim_C3_counterexample :
    ¬ ((60 * 1000 + 999) / 1000 ≤ MAX_LOOPS) ∧
    resultLength (fetchHistoricalData oneCandleSource 3600000000 1000) = some MAX_LOOPS ∧
    (fetchTrace oneCandleSource 3600000000 MAX_LOOPS
      (3600000000 - 1000 * 60 * 60 * 1000)).length = MAX_LOOPS :=
  ⟨by decide, by decide, by decide⟩

/-- C4: a fetch fails exactly when some issued request gets a transport error
or a non-list payload, the two failure species carrying distinct messages; an
empty page is not an error and ends the loop returning what was accumulated,
even though the cursor has not reached `now`. -/
theorem claim_C4 (source : Int → PageResponse) (now : Int) (fuel : Nat)
    (cursor : Int) (acc : List BinanceKline) :
    (∀ e, fetchLoop source now fuel cursor acc = Except.error e ↔
        ∃ c ∈ fetchTrace source now fuel cursor, failsWith (source c) e) ∧
    (∀ (s : Nat) (t b : String),
        (FetchError.transport s t).message ≠ (FetchError.app b).message) ∧
    (cursor < now → source cursor = PageResponse.page [] →
        fetchLoop source now (fuel + 1) cursor acc = Except.ok acc) := by
  refine ⟨fetchLoop_error_iff source now fuel cursor acc, ?_, ?_⟩
  · intro s t b
    exact transportMessage_ne_appMessage s t b
  · intro hc hsrc
    unfold fetchLoop
    rw [if_pos hc, hsrc]

/-- Witness for C4: an empty first page ends a fetch successfully with the
empty accumulator, and an erroring source makes the same fetch fail with the
transport error. -/
theorem claim_C4_witness :
    fetchLoop emptySource 100 (4 + 1) 0 [] = Except.ok [] ∧
    fetchLoop errSource 100 5 0 []
      = Except.error (FetchError.transport 500 "Internal Server Error") :=
  ⟨(claim_C4 emptySource 100 4 0 []).2.2 (by decide) rfl,
   ((claim_C4 errSource 100 5 0 []).1 _).mpr ⟨0, by decide, rfl⟩⟩

/-- C9 (modelled from the spec): every percentage handed to the progress
callback is of the form `progressPercent startTime now c` and lies in
`[0, 100]`. -/
theorem claim_C9 (source : Int → PageResponse) (now startTime : Int)
    (fuel : Nat) (cursor : Int) :
    ∀ p ∈ fetchProgressReports source now startTime fuel cursor,
      (∃ c, p = progressPercent startTime now c) ∧ 0 ≤ p ∧ p ≤ 100 := by
  induction fuel generalizing cursor with
  | zero =>
    intro p hp
    simp [fetchProgressReports] at hp
  | succ fuel ih =>
    intro p hp
    unfold fetchProgressReports at hp
    by_cases hc : cursor < now
    · rw [if_pos hc] at hp
      cases hsrc : source cursor with
      | transportError s t => rw [hsrc] at hp; simp at hp
      | appError b => rw [hsrc] at hp; simp at hp
      | page rows =>
        cases rows with
        | nil => rw [hsrc] at hp; simp at hp
        | cons r rs =>
          rw [hsrc] at hp
          simp only [List.mem_cons] at hp
          rcases hp with rfl | hp
          · refine ⟨⟨_, rfl⟩, ?_, min_le_left _ _⟩
            exact le_min (by norm_num) (le_max_left 0 _)
          · exact ih _ p hp
    · rw [if_neg hc] at hp
      simp at hp

/-- Witness for C9: the first report of a concrete sparse fetch is the
percentage 1, which is of the stated form and lies in `[0, 100]`. -/
theorem claim_C9_witness :
    (∃ c, (1 : Int) = progressPercent 0 3600000 c) ∧
      (0 : Int) ≤ 1 ∧ (1 : Int) ≤ 100 :=
  claim_C9 oneCandleSource 3600000 0 MAX_LOOPS 0 1 (by decide)

/-!
Lemmas relating the reference model to the pure analyzer.
-/

theorem map_deref_range :
    ∀ (klines : List BinanceKline),
      (List.range klines.length).map (deref klines) = klines := by
  intro klines
  induction klines with
  | nil => rfl
  | cons x xs ih =>
    rw [List.length_cons, List.range_succ_eq_map, List.map_cons, List.map_map]
    have hcomp : (deref (x :: xs)) ∘ Nat.succ = deref xs := by
      funext i
      simp [deref]
    rw [hcomp, ih]
    rfl

theorem map_orderedInsert {α β : Type} (f : α → β) (r : α → α → Prop)
    (r' : β → β → Prop) [DecidableRel r] [DecidableRel r']
    (hrr : ∀ a b, r a b ↔ r' (f a) (f b)) :
    ∀ (a : α) (l : List α),
      (List.orderedInsert r a l).map f = List.orderedInsert r' (f a) (l.map f) := by
  intro a l
  induction l with
  | nil => rfl
  | cons b l ih =>
    by_cases h : r a b
    · simp [List.orderedInsert, h, (hrr a b).mp h]
    · have h' : ¬ r' (f a) (f b) := fun hb => h ((hrr a b).mpr hb)
      simp [List.orderedInsert, h, h', ih]

theorem map_insertionSort {α β : Type} (f : α → β) (r : α → α → Prop)
    (r' : β → β → Prop) [DecidableRel r] [DecidableRel r']
    (hrr : ∀ a b, r a b ↔ r' (f a) (f b)) :
    ∀ (l : List α),
      (List.insertionSort r l).map f = List.insertionSort r' (l.map f) := by
  intro l
  induction l with
  | nil => rfl
  | cons a l ih =>
    rw [List.insertionSort, List.map_cons, List.insertionSort,
      map_orderedInsert f r r' hrr, ih]

theorem intervalResultsRef_eq (klines : List BinanceKline) :
    intervalResultsRef ⟨klines, List.range klines.length⟩ = intervalResults klines := by
  have hmap : (List.range klines.length).map
      (fun i => bucketStart (deref klines i).openTime)
      = klines.map (fun k => bucketStart k.openTime) := by
    have h2 := List.map_map (fun k => bucketStart k.openTime) (deref klines)
      (List.range klines.length)
    rw [map_deref_range] at h2
    exact h2.symm
  have hfilter : ∀ b : Int,
      ((List.range klines.length).filter
          (fun i => decide (bucketStart (deref klines i).openTime = b))).map (deref klines)
        = bucketCandles klines b := by
    intro b
    unfold bucketCandles
    conv_rhs => rw [← map_deref_range klines]
    rw [List.filter_map]
    rfl
  have hfun : ∀ b : Int,
      (if ((List.range klines.length).filter
            (fun i => decide (bucketStart (deref klines i).openTime = b))).length < 15
       then none
       else some (mkIntervalAnalysis b
          ((List.insertionSort
              (fun i j => (deref klines i).openTime ≤ (deref klines j).openTime)
              ((List.range klines.length).filter
                (fun i => decide (bucketStart (deref klines i).openTime = b)))).map
            (deref klines))))
        = (if (bucketCandles klines b).length < 15 then none
           else some (mkIntervalAnalysis b (sortedBucket klines b))) := by
    intro b
    have hlen : ((List.range klines.length).filter
        (fun i => decide (bucketStart (deref klines i).openTime = b))).length
          = (bucketCandles klines b).length := by
      rw [← hfilter b, List.length_map]
    have hsort : (List.insertionSort
          (fun i j => (deref klines i).openTime ≤ (deref klines j).openTime)
          ((List.range klines.length).filter
            (fun i => decide (bucketStart (deref klines i).openTime = b)))).map
        (deref klines)
          = sortedBucket klines b := by
      rw [map_insertionSort (deref klines)
            (fun i j => (deref klines i).openTime ≤ (deref klines j).openTime)
            (fun a c => a.openTime ≤ c.openTime) (fun _ _ => Iff.rfl),
          hfilter b]
      rfl
    rw [hsort, hlen]
  unfold intervalResultsRef intervalResults sortedKeys
  simp only []
  rw [hmap]
  exact List.filterMap_congr (fun b _ => hfun b)

/-- C10: run over the explicit heap model — an immutable store of candle
records and an input array of references into it — the analysis hands back
the store and the input array exactly as given (no record field and no input
slot is ever written; the only sorts act on freshly built per-bucket
reference arrays), and it computes the very stats of the pure `analyzeData`. -/
theorem claim_C10 (klines : List BinanceKline) (symbol : String) :
    (analyzeDataRef ⟨klines, List.range klines.length⟩ symbol).2
        = ⟨klines, List.range klines.length⟩ ∧
    (analyzeDataRef ⟨klines, List.range klines.length⟩ symbol).1
        = analyzeData klines symbol := by
  refine ⟨rfl, ?_⟩
  unfold analyzeDataRef analyzeData
  simp only [intervalResultsRef_eq]

/-- C6 (amended): the number of analyzed buckets never exceeds
`floor(candle_count / 15)`, and it is strictly smaller whenever the candle
count is a multiple of 15 and some non-empty bucket is incomplete.  (The
original "strictly less whenever trailing candles do not fill a complete
bucket" fails, e.g. on 16 candles — see the counterexample.) -/
theorem claim_C6 (klines : List BinanceKline) (symbol : String) :
    (analyzeData klines symbol).dataPoints.length
        = (analyzeData klines symbol).totalIntervals ∧
    (analyzeData klines symbol).dataPoints.length ≤ klines.length / 15 ∧
    ((15 ∣ klines.length) →
      (∃ b, bucketCandles klines b ≠ [] ∧ (bucketCandles klines b).length < 15) →
      (analyzeData klines symbol).dataPoints.length < klines.length / 15) := by
  have hdp : (analyzeData klines symbol).dataPoints.length
      = (intervalResults klines).length := by
    simp [analyzeData]
  have htot : (analyzeData klines symbol).totalIntervals
      = (intervalResults klines).length := rfl
  set C := (sortedKeys klines).filter
    (fun b => decide (15 ≤ (bucketCandles klines b).length)) with hC
  have hcount : (intervalResults klines).length = C.length := intervalResults_length klines
  have h15C : ∀ x ∈ C.map (fun b => (bucketCandles klines b).length), 15 ≤ x := by
    intro x hx
    obtain ⟨b, hbC, rfl⟩ := List.mem_map.mp hx
    exact of_decide_eq_true (List.mem_filter.mp hbC).2
  have hlow : 15 * C.length ≤ (C.map (fun b => (bucketCandles klines b).length)).sum := by
    have h := mul_length_le_sum 15 _ h15C
    rwa [List.length_map] at h
  have hsub : (C.map (fun b => (bucketCandles klines b).length)).sum
      ≤ ((sortedKeys klines).map (fun b => (bucketCandles klines b).length)).sum :=
    List.Sublist.sum_le_sum
      (List.Sublist.map _ (List.filter_sublist _)) (fun a _ => Nat.zero_le a)
  have htop := sum_bucketLengths_le (sortedKeys klines) (sortedKeys_nodup klines) klines
  have hmain : 15 * C.length ≤ klines.length := le_trans hlow (le_trans hsub htop)
  refine ⟨by rw [hdp, htot], ?_, ?_⟩
  · rw [hdp, hcount, Nat.le_div_iff_mul_le (by norm_num)]
    omega
  · rintro ⟨m, hm⟩ ⟨b₀, hne, hlt⟩
    have hb₀ : b₀ ∉ C := by
      intro hmem
      exact absurd (of_decide_eq_true (List.mem_filter.mp hmem).2) (Nat.not_le.mpr hlt)
    have hnd : (b₀ :: C).Nodup :=
      List.nodup_cons.mpr ⟨hb₀, (sortedKeys_nodup klines).filter _⟩
    have hsum := sum_bucketLengths_le (b₀ :: C) hnd klines
    rw [List.map_cons, List.sum_cons] at hsum
    have hpos : 0 < (bucketCandles klines b₀).length := List.length_pos.mpr hne
    rw [hdp, hcount]
    omega

/-- Counterexample to C6 as stated: 16 candles whose trailing candle does not
fill a complete bucket, yet the bucket count is not strictly below
`floor(16 / 15) = 1`. -/
theorem claim_C6_counterexample :
    bucketCandles scenario16 900000 ≠ [] ∧
    (bucketCandles scenario16 900000).length < 15 ∧
    ¬ ((analyzeData scenario16 "BTCUSDT").dataPoints.length < scenario16.length / 15) ∧
    (analyzeData scenario16 "BTCUSDT").dataPoints.length = scenario16.length / 15 :=
  ⟨by decide, by decide, by decide, by decide⟩

/-- Witness for C6: 15 candles split 14 + 1 across two buckets leave zero
complete buckets, strictly below `floor(15 / 15) = 1`. -/
theorem claim_C6_witness :
    (analyzeData gapped15 "BTCUSDT").dataPoints.length < gapped15.length / 15 :=
  (claim_C6 gapped15 "BTCUSDT").2.2 (by decide) ⟨0, by decide, by decide⟩
